import Mathlib

/-!
Shallow embedding of the reconciliation core of `deal_finder.py`:
the filter layer (`apply_filters`), the merge engine (`upsert_listing`),
the read-side queries (`get_listings`, `get_price_drops`) and the batch
loop of `run_full_scrape`.

Modelling conventions:
* Python `None` becomes `Option.none`; Python truthiness on optional
  integers, strings, rationals and on lists is modelled explicitly.
* SQLite rows become Lean structures; the `listings` table is a list of
  `StoredListing` in rowid order together with the autoincrement counter
  `next_id`; the `price_alerts` table is a list of `PriceAlert`.
* Timestamps (ISO strings in the code, compared by the usual order) are
  abstract `Nat` instants.
* Prices, msrp, mileage and years are Python integers, modelled as `Int`.
* A raised Python exception (`KeyError` on a missing required key, or the
  `NOT NULL` integrity error when a required column is `None`) is the
  `Except.error` branch; the SQLite transaction is never committed in that
  case, so the durable store is unchanged.
-/

namespace DealFinder

/-- Python truthiness of an optional integer: `None` and `0` are falsy. -/
def truthyInt : Option Int → Bool
  | none => false
  | some n => !(n == 0)

/-- Python truthiness of a plain integer: `0` is falsy. -/
def truthyIntVal (n : Int) : Bool :=
  !(n == 0)

/-- Python truthiness of an optional string: `None` and the empty string are falsy. -/
def truthyStr : Option String → Bool
  | none => false
  | some s => !(s == "")

/-- Python truthiness of an optional rational, used for `min_discount_percent`. -/
def truthyRat : Option ℚ → Bool
  | none => false
  | some q => !(q == 0)

/-- SQL `COALESCE(a, b)`: the first non-null argument. -/
def coalesce : Option α → Option α → Option α
  | some v, _ => some v
  | none, b => b

/-- Whether `pre` is an initial segment of `l`, on characters. -/
def listStartsWith : List Char → List Char → Bool
  | [], _ => true
  | _ :: _, [] => false
  | a :: as, b :: bs => a == b && listStartsWith as bs

/-- Whether `needle` occurs contiguously inside `hay`, on characters. -/
def listHasSub : List Char → List Char → Bool
  | needle, [] => needle.isEmpty
  | needle, c :: rest => listStartsWith needle (c :: rest) || listHasSub needle rest

/-- The Python substring test `needle in hay`. -/
def strContains (needle hay : String) : Bool :=
  listHasSub needle.toList hay.toList

/-- A row of the `listings` table (schema of `init_database`). -/
structure StoredListing where
  id : Nat
  source : String
  listing_id : String
  make : String
  model : String
  year : Int
  trim : Option String
  price : Option Int
  msrp : Option Int
  mileage : Option Int
  dealer_name : Option String
  dealer_phone : Option String
  dealer_address : Option String
  listing_url : Option String
  vin : Option String
  stock_number : Option String
  first_seen : Nat
  last_seen : Nat
  price_history : List (Option Int × Nat)
deriving DecidableEq, Repr

/-- A row of the `price_alerts` table. -/
structure PriceAlert where
  listing_id : Nat
  old_price : Option Int
  new_price : Option Int
  change_date : Nat
deriving DecidableEq, Repr

/-- The durable SQLite state touched by the core: the `listings` table in
rowid order, its autoincrement counter, and the `price_alerts` table. -/
structure Store where
  listings : List StoredListing
  alerts : List PriceAlert
  next_id : Nat
deriving DecidableEq, Repr

/-- The empty database produced by `init_database` (autoincrement starts at 1). -/
def emptyStore : Store :=
  ⟨[], [], 1⟩

/-- The keys of the `FILTERS` configuration dictionary. -/
structure Filters where
  price_min : Option Int
  price_max : Option Int
  mileage_max : Option Int
  trims_include : List String
  trims_exclude : List String
  dealers_include : List String
  dealers_exclude : List String
  keywords_exclude : List String
  year_min : Option Int
  year_max : Option Int
  only_price_drops : Bool
  min_discount_percent : Option ℚ
deriving DecidableEq, Repr

/-- The default `FILTERS` dictionary of the source: everything disabled. -/
def FILTERS : Filters :=
  ⟨none, none, none, [], [], [], [], [], none, none, false, none⟩

/-- One loop iteration of `apply_filters`: whether `listing` survives every
`continue` check, in source order. -/
def passes_filters (filters : Filters) (listing : StoredListing) : Bool :=
  let price := listing.price
  let trim := (listing.trim.getD "").toLower
  let dealer := (listing.dealer_name.getD "").toLower
  (!(truthyInt price && truthyInt filters.price_min &&
      decide (price.getD 0 < filters.price_min.getD 0))) &&
  (!(truthyInt price && truthyInt filters.price_max &&
      decide (filters.price_max.getD 0 < price.getD 0))) &&
  (!(truthyInt filters.mileage_max && truthyInt listing.mileage &&
      decide (filters.mileage_max.getD 0 < listing.mileage.getD 0))) &&
  (!(truthyIntVal listing.year && truthyInt filters.year_min &&
      decide (listing.year < filters.year_min.getD 0))) &&
  (!(truthyIntVal listing.year && truthyInt filters.year_max &&
      decide (filters.year_max.getD 0 < listing.year))) &&
  (if filters.trims_include.isEmpty then true
   else filters.trims_include.any (fun t => strContains t.toLower trim)) &&
  (!(filters.trims_exclude.any (fun t => strContains t.toLower trim))) &&
  (if filters.dealers_include.isEmpty then true
   else filters.dealers_include.any (fun d => strContains d.toLower dealer)) &&
  (!(filters.dealers_exclude.any (fun d => strContains d.toLower dealer))) &&
  (!(filters.keywords_exclude.any (fun kw =>
      strContains kw.toLower
        ((trim ++ " " ++ listing.make ++ " " ++ listing.model).toLower)))) &&
  (!(truthyRat filters.min_discount_percent &&
      truthyInt listing.msrp && truthyInt price &&
      decide ((((listing.msrp.getD 0 : ℚ) - (price.getD 0 : ℚ)) /
          (listing.msrp.getD 0 : ℚ)) * 100 < filters.min_discount_percent.getD 0))) &&
  (!(filters.only_price_drops && listing.price_history.isEmpty))

/-- `apply_filters` of the source: keep the listings passing every check. -/
def apply_filters (listings : List StoredListing) (filters : Filters) :
    List StoredListing :=
  listings.filter (passes_filters filters)

/-- A `CandidateListing` dictionary as produced by the scrapers; every key may
be absent or `None`, which this model identifies. -/
structure Candidate where
  source : Option String
  listing_id : Option String
  make : Option String
  model : Option String
  year : Option Int
  trim : Option String
  price : Option Int
  msrp : Option Int
  mileage : Option Int
  dealer_name : Option String
  dealer_phone : Option String
  dealer_address : Option String
  listing_url : Option String
  vin : Option String
  stock_number : Option String
deriving DecidableEq, Repr

/-- The outcome string returned by `upsert_listing`. -/
inductive MergeAction
  | inserted
  | updated
  | unchanged
deriving DecidableEq, Repr

/-- The identity lookup `WHERE source = ? AND listing_id = ?`. -/
def matchesIdentity (src lid : String) (l : StoredListing) : Bool :=
  l.source == src && l.listing_id == lid

/-- The price-change test of `upsert_listing`:
`if old_price and new_price and old_price != new_price`. -/
def priceChangeDetected (old_price new_price : Option Int) : Bool :=
  truthyInt old_price && truthyInt new_price && !(old_price == new_price)

/-- The `COALESCE(?, column)` updates shared by both UPDATE statements of
`upsert_listing`: the eight mutable descriptive fields. -/
def mergeFields (c : Candidate) (l : StoredListing) : StoredListing :=
  { l with
    trim := coalesce c.trim l.trim
    msrp := coalesce c.msrp l.msrp
    mileage := coalesce c.mileage l.mileage
    dealer_name := coalesce c.dealer_name l.dealer_name
    dealer_phone := coalesce c.dealer_phone l.dealer_phone
    dealer_address := coalesce c.dealer_address l.dealer_address
    vin := coalesce c.vin l.vin
    stock_number := coalesce c.stock_number l.stock_number }

/-- Reading a required key of the candidate dictionary: a missing (or `None`,
given the NOT NULL schema) value raises, modelled as `Except.error key`. -/
def requireKey (o : Option α) (key : String) : Except String α :=
  match o with
  | some v => Except.ok v
  | none => Except.error key

/-- `upsert_listing` of the source: insert or update one listing, returning
the action, whether the price changed, and the committed store. An error is
an uncommitted transaction: the durable store is unchanged. -/
def upsert_listing (c : Candidate) (st : Store) (now : Nat) :
    Except String (MergeAction × Bool × Store) := do
  let source ← requireKey c.source "source"
  let listing_id ← requireKey c.listing_id "listing_id"
  match st.listings.find? (matchesIdentity source listing_id) with
  | some existing =>
    let old_price := existing.price
    let new_price := c.price
    if priceChangeDetected old_price new_price then
      let updated : StoredListing :=
        { mergeFields c existing with
          price := new_price
          last_seen := now
          price_history := existing.price_history ++ [(old_price, now)] }
      let alert : PriceAlert := ⟨existing.id, old_price, new_price, now⟩
      Except.ok (MergeAction.updated, true,
        { st with
          listings := st.listings.map (fun l => if l.id == existing.id then updated else l)
          alerts := st.alerts ++ [alert] })
    else
      let updated : StoredListing := { mergeFields c existing with last_seen := now }
      Except.ok (MergeAction.unchanged, false,
        { st with
          listings := st.listings.map (fun l => if l.id == existing.id then updated else l) })
  | none =>
    let make ← requireKey c.make "make"
    let model ← requireKey c.model "model"
    let year ← requireKey c.year "year"
    let newListing : StoredListing :=
      ⟨st.next_id, source, listing_id, make, model, year,
        c.trim, c.price, c.msrp, c.mileage, c.dealer_name, c.dealer_phone,
        c.dealer_address, c.listing_url, c.vin, c.stock_number, now, now, []⟩
    Except.ok (MergeAction.inserted, false,
      { st with listings := st.listings ++ [newListing], next_id := st.next_id + 1 })

/-- The merge loop of `run_full_scrape` over one scraped batch: each candidate
is upserted in order; an uncaught exception stops the loop, leaving the store
as committed so far together with the propagated error. -/
def process_listings (cs : List Candidate) (st : Store) (now : Nat) :
    Store × Option String :=
  match cs with
  | [] => (st, none)
  | c :: rest =>
    match upsert_listing c st now with
    | Except.ok (_, _, st') => process_listings rest st' now
    | Except.error e => (st, some e)

/-- The SQLite ascending comparison on the nullable `price` column:
`NULL` sorts before every integer. -/
def sqlitePriceLe : Option Int → Option Int → Bool
  | none, _ => true
  | some _, none => false
  | some x, some y => decide (x ≤ y)

/-- The `ORDER BY price ASC` order on rows. -/
def priceOrd (a b : StoredListing) : Prop :=
  sqlitePriceLe a.price b.price = true

instance : DecidableRel priceOrd :=
  fun a b => instDecidableEqBool (sqlitePriceLe a.price b.price) true

/-- The optional `WHERE LOWER(make) = LOWER(?)` / model restriction of
`get_listings`; an absent or empty argument adds no clause. -/
def matchesMakeModel (make model : Option String) (l : StoredListing) : Bool :=
  (!truthyStr make || (l.make.toLower == (make.getD "").toLower)) &&
  (!truthyStr model || (l.model.toLower == (model.getD "").toLower))

/-- The rows produced by the SELECT of `get_listings`: the restriction by
make and model, ordered by `ORDER BY price ASC` (SQLite order on the
nullable column). -/
def sortedRows (make model : Option String) (st : Store) : List StoredListing :=
  List.insertionSort priceOrd (st.listings.filter (matchesMakeModel make model))

/-- `get_listings` of the source: restrict by make and model, sort ascending
by price, then optionally apply the configured filters. -/
def get_listings (make model : Option String) (use_filters : Bool)
    (filters : Filters) (st : Store) : List StoredListing :=
  if use_filters then apply_filters (sortedRows make model st) filters
  else sortedRows make model st

/-- One row of the `get_price_drops` join: the alert columns plus the current
descriptive columns of the referenced listing. -/
structure DropRow where
  alert : PriceAlert
  make : String
  model : String
  year : Int
  trim : Option String
  dealer_name : Option String
  listing_url : Option String
deriving DecidableEq, Repr

/-- The `ORDER BY change_date DESC` order on joined rows. -/
def dropOrd (a b : DropRow) : Prop :=
  b.alert.change_date ≤ a.alert.change_date

instance : DecidableRel dropOrd :=
  fun a b => Nat.decLe b.alert.change_date a.alert.change_date

/-- The rows of the `get_price_drops` SELECT before ordering: alerts at or
after the cutoff, inner-joined with the current row of the referenced
listing. -/
def joinRows (st : Store) (cutoff : Nat) : List DropRow :=
  st.alerts.filterMap (fun pa =>
    if cutoff ≤ pa.change_date then
      (st.listings.find? (fun l => l.id == pa.listing_id)).map
        (fun l => ⟨pa, l.make, l.model, l.year, l.trim, l.dealer_name, l.listing_url⟩)
    else none)

/-- `get_price_drops` of the source, with the cutoff instant made explicit:
the joined window rows ordered `ORDER BY change_date DESC`, newest first. -/
def get_price_drops (st : Store) (cutoff : Nat) : List DropRow :=
  List.insertionSort dropOrd (joinRows st cutoff)


/-! ### Spec-side predicates (stated from the words of the claims, to be
compared with the behaviour of the source functions) -/

/-- Ordering from the words of the claim about `get_listings`: ascending by
price with null prices placed last. -/
def specNullsLastLe : Option Int → Option Int → Bool
  | none, none => true
  | none, some _ => false
  | some _, none => true
  | some x, some y => decide (x ≤ y)

/-- Keep-predicate from the words of the (amended) price-bounds claim: a
listing is kept unless its price is known and nonzero and lies outside an
effective (set and nonzero) bound. -/
def keptByPriceBounds (pmin pmax price : Option Int) : Bool :=
  match price with
  | none => true
  | some p =>
    if p == 0 then true
    else
      (match pmin with
       | none => true
       | some m => if m == 0 then true else decide (m ≤ p)) &&
      (match pmax with
       | none => true
       | some m => if m == 0 then true else decide (p ≤ m))

/-- Keep-predicate from the words of the (amended) discount claim: with the
option set, a listing with known nonzero msrp and price is kept exactly when
the discount percentage reaches the threshold; all other listings pass
through unfiltered. -/
def keptByDiscount (t : ℚ) (msrp price : Option Int) : Bool :=
  match msrp, price with
  | some m, some p =>
    if m == 0 || p == 0 then true
    else decide (t ≤ (((m : ℚ) - (p : ℚ)) / (m : ℚ)) * 100)
  | _, _ => true

/-! ### Instances and concrete data used by the verification -/

deriving instance DecidableEq for Except

instance : IsTotal StoredListing priceOrd :=
  ⟨by
    intro a b
    unfold priceOrd sqlitePriceLe
    rcases a.price with _ | x <;> rcases b.price with _ | y <;> simp <;> omega⟩

instance : IsTrans StoredListing priceOrd :=
  ⟨by
    intro a b c hab hbc
    unfold priceOrd sqlitePriceLe at *
    rcases hx : a.price with _ | x <;> rcases hy : b.price with _ | y <;>
      rcases hz : c.price with _ | z <;> simp_all <;> omega⟩

instance : IsTotal DropRow dropOrd :=
  ⟨by intro a b; unfold dropOrd; omega⟩

instance : IsTrans DropRow dropOrd :=
  ⟨by intro a b c hab hbc; unfold dropOrd at *; omega⟩

/-- Fully populated stored row used by the C1 scenarios (price 45000). -/
def exC1 : StoredListing :=
  ⟨1, "cars.com", "L1", "toyota", "tundra", 2024, some "SR5", some 45000,
   none, none, some "Mossy", none, none, none, none, none, 10, 10, []⟩

def stC1 : Store :=
  ⟨[exC1], [], 2⟩

/-- Candidate re-observing `exC1` at the lower price 43000. -/
def cC1 : Candidate :=
  ⟨some "cars.com", some "L1", some "toyota", some "tundra", some 2024,
   some "SR5", some 43000, none, none, some "Mossy", none, none, none, none, none⟩

/-- Candidate re-observing `exC1` at the literal price 0. -/
def cC1zero : Candidate :=
  { cC1 with price := some 0 }

/-- Stored row with an unknown price, used by the C2 scenarios. -/
def exC2 : StoredListing :=
  ⟨1, "cars.com", "L1", "toyota", "tundra", 2024, some "SR5", none,
   none, none, some "Mossy", none, none, none, none, none, 10, 10, []⟩

def stC2 : Store :=
  ⟨[exC2], [], 2⟩

/-- Candidate supplying the price 43000 for the price-less `exC2`. -/
def cC2 : Candidate :=
  ⟨some "cars.com", some "L1", some "toyota", some "tundra", some 2024,
   some "SR5", some 43000, none, none, some "Mossy", none, none, none, none, none⟩

/-- Well-formed candidate used by the idempotence scenario. -/
def cC3 : Candidate :=
  ⟨some "cargurus", some "G7", some "ford", some "f-150", some 2025,
   some "Lariat", some 61000, some 64000, some 12, some "Some Ford", none,
   none, some "u", some "VIN00000000000000", some "SN1"⟩

/-- Stored row with a known trim and unknown msrp, used by the C4 scenario. -/
def exC4 : StoredListing :=
  ⟨1, "autotrader", "A9", "toyota", "tundra", 2024, some "SR5", some 45000,
   none, none, some "Mossy", none, none, none, none, none, 10, 10, []⟩

def stC4 : Store :=
  ⟨[exC4], [], 2⟩

/-- Candidate for `exC4` with a null trim and a fresh msrp. -/
def cC4 : Candidate :=
  ⟨some "autotrader", some "A9", some "toyota", some "tundra", some 2024,
   none, some 45000, some 61000, none, none, none, none, none, none, none⟩

def lC5a : StoredListing :=
  ⟨1, "s", "1", "toyota", "tundra", 2024, none, none, none, none, none,
   none, none, none, none, none, 0, 0, []⟩

def lC5b : StoredListing :=
  ⟨2, "s", "2", "toyota", "tundra", 2024, none, some 30000, none, none, none,
   none, none, none, none, none, 0, 0, []⟩

def stC5 : Store :=
  ⟨[lC5a, lC5b], [], 3⟩

def lC6 (i : Nat) (p : Option Int) : StoredListing :=
  ⟨i, "s", toString i, "toyota", "tundra", 2024, none, p, none, none, none,
   none, none, none, none, none, 0, 0, []⟩

def lC7 : StoredListing :=
  ⟨1, "s", "1", "toyota", "tundra", 2024, some "SR5", some 43000, none, none,
   some "Mossy", none, none, some "u", none, none, 0, 9, []⟩

/-- Store with one listing and two alerts, dated 2 and 9, for the
change-event window scenario with cutoff 3. -/
def stC7 : Store :=
  ⟨[lC7], [⟨1, some 45000, some 44000, 2⟩, ⟨1, some 44000, some 43000, 9⟩], 2⟩

/-- Listing lacking msrp, for the discount-filter scenarios. -/
def lC8 : StoredListing :=
  ⟨1, "s", "1", "toyota", "tundra", 2024, none, some 50000, none, none, none,
   none, none, none, none, none, 0, 0, []⟩

/-- Listing with msrp 60000 and price 58000 (a 10/3 percent discount). -/
def lC8w : StoredListing :=
  ⟨2, "s", "2", "toyota", "tundra", 2024, none, some 58000, some 60000, none,
   none, none, none, none, none, none, 0, 0, []⟩

/-- Candidate missing the required `make` key. -/
def cC9bad : Candidate :=
  ⟨some "cars.com", some "B1", none, some "tundra", some 2024,
   none, some 45000, none, none, none, none, none, none, none, none⟩

/-- Well-formed candidate queued after the malformed one. -/
def cC9good : Candidate :=
  ⟨some "cars.com", some "B2", some "toyota", some "tundra", some 2024,
   none, some 52000, none, none, none, none, none, none, none, none⟩

/-- Stored row whose price is the literal 0, for the C10 merge scenario. -/
def exC10 : StoredListing :=
  ⟨1, "cars.com", "Z1", "toyota", "tundra", 2024, none, some 0,
   none, none, none, none, none, none, none, none, 10, 10, []⟩

def stC10 : Store :=
  ⟨[exC10], [], 2⟩

/-- Candidate re-observing `exC10` at price 500. -/
def cC10 : Candidate :=
  ⟨some "cars.com", some "Z1", some "toyota", some "tundra", some 2024,
   none, some 500, none, none, none, none, none, none, none, none⟩

/-- Listing priced at the literal 0, for the C10 filter scenario. -/
def lC10 : StoredListing :=
  ⟨1, "s", "1", "toyota", "tundra", 2024, none, some 0, none, none, none,
   none, none, none, none, none, 0, 0, []⟩

/-- The row created by the INSERT branch of `upsert_listing`, with the
required values, the assigned rowid and the two observation instants spelled
out. -/
def insertedRow (c : Candidate) (src lid mk md : String) (yr : Int)
    (rowid firstSeen lastSeen : Nat) : StoredListing :=
  ⟨rowid, src, lid, mk, md, yr, c.trim, c.price, c.msrp, c.mileage,
   c.dealer_name, c.dealer_phone, c.dealer_address, c.listing_url,
   c.vin, c.stock_number, firstSeen, lastSeen, []⟩

/-! ### Basic lemmas about the embedded operations -/

theorem coalesce_self (a : Option α) : coalesce a a = a := by
  cases a <;> rfl

theorem coalesce_eq_ite (a b : Option α) :
    coalesce a b = if a.isSome then a else b := by
  cases a <;> rfl

/-- The price-change test fires exactly when both prices are known, both are
nonzero, and they differ. -/
theorem priceChangeDetected_iff (old_price new_price : Option Int) :
    priceChangeDetected old_price new_price = true ↔
      ∃ op np, old_price = some op ∧ new_price = some np ∧
        op ≠ 0 ∧ np ≠ 0 ∧ op ≠ np := by
  cases old_price <;> cases new_price <;>
    simp [priceChangeDetected, truthyInt] <;> tauto

theorem find?_append_of_none {p : α → Bool} {l₁ l₂ : List α}
    (h : l₁.find? p = none) : (l₁ ++ l₂).find? p = l₂.find? p := by
  induction l₁ with
  | nil => rfl
  | cons a as ih =>
    rw [List.cons_append]
    cases hpa : p a with
    | true => simp [List.find?, hpa] at h
    | false =>
      simp only [List.find?, hpa] at h ⊢
      exact ih h

theorem map_replace_id_eq_self {xs : List StoredListing} {i : Nat} {U : StoredListing}
    (h : ∀ l ∈ xs, l.id ≠ i) :
    xs.map (fun l => if l.id == i then U else l) = xs := by
  induction xs with
  | nil => rfl
  | cons a as ih =>
    have ha : (a.id == i) = false := by
      simpa using h a (List.mem_cons_self a as)
    simp only [List.map_cons, ha, Bool.false_eq_true, if_false, List.cons.injEq, true_and]
    exact ih fun l hl => h l (List.mem_cons_of_mem a hl)

/-- Unfolding of `upsert_listing` on an existing identity: the two UPDATE
branches, selected by the price-change test. -/
theorem upsert_existing_branches (c : Candidate) (st : Store) (now : Nat)
    (src lid : String) (ex : StoredListing)
    (hs : c.source = some src) (hl : c.listing_id = some lid)
    (hfind : st.listings.find? (matchesIdentity src lid) = some ex) :
    upsert_listing c st now =
      if priceChangeDetected ex.price c.price then
        Except.ok (MergeAction.updated, true,
          { st with
            listings := st.listings.map (fun l => if l.id == ex.id then
              { mergeFields c ex with
                price := c.price
                last_seen := now
                price_history := ex.price_history ++ [(ex.price, now)] } else l)
            alerts := st.alerts ++ [⟨ex.id, ex.price, c.price, now⟩] })
      else
        Except.ok (MergeAction.unchanged, false,
          { st with
            listings := st.listings.map (fun l => if l.id == ex.id then
              { mergeFields c ex with last_seen := now } else l) }) := by
  unfold upsert_listing
  rw [hs, hl]
  simp only [requireKey, Bind.bind, Except.bind]
  rw [hfind]


/-! ### C1: price-change detection -/

/-- C1 (amended: the two prices must be non-null *and nonzero* — Python
truthiness — for a change to be detected): merging a candidate onto an
existing identity detects a price change iff both prices are known, nonzero
and unequal; when detected the merge returns the updated action with the
price-changed flag, appends exactly one alert carrying the old and new
price, sets the stored price to the candidate price and appends exactly one
`(old price, now)` entry to the price history; otherwise it returns the
unchanged action and appends nothing. -/
theorem upsert_price_change_detection (c : Candidate) (st : Store) (now : Nat)
    (src lid : String) (ex : StoredListing)
    (hs : c.source = some src) (hl : c.listing_id = some lid)
    (hfind : st.listings.find? (matchesIdentity src lid) = some ex) :
    (priceChangeDetected ex.price c.price = true ↔
      ∃ op np, ex.price = some op ∧ c.price = some np ∧
        op ≠ 0 ∧ np ≠ 0 ∧ op ≠ np) ∧
    (priceChangeDetected ex.price c.price = true →
      ∃ U st', upsert_listing c st now = Except.ok (MergeAction.updated, true, st') ∧
        st'.alerts = st.alerts ++ [⟨ex.id, ex.price, c.price, now⟩] ∧
        st'.listings = st.listings.map (fun l => if l.id == ex.id then U else l) ∧
        U.price = c.price ∧
        U.price_history = ex.price_history ++ [(ex.price, now)] ∧
        U.last_seen = now) ∧
    (priceChangeDetected ex.price c.price = false →
      ∃ U st', upsert_listing c st now = Except.ok (MergeAction.unchanged, false, st') ∧
        st'.alerts = st.alerts ∧
        st'.listings = st.listings.map (fun l => if l.id == ex.id then U else l) ∧
        U.price = ex.price ∧
        U.price_history = ex.price_history) := by
  have hbr := upsert_existing_branches c st now src lid ex hs hl hfind
  refine ⟨priceChangeDetected_iff ex.price c.price, ?_, ?_⟩
  · intro h
    rw [h, if_pos rfl] at hbr
    exact ⟨_, _, hbr, rfl, rfl, rfl, rfl, rfl⟩
  · intro h
    rw [h] at hbr
    simp only [Bool.false_eq_true, if_false] at hbr
    exact ⟨_, _, hbr, rfl, rfl, rfl, rfl⟩

/-- Counterexample to C1 as stated: the stored price 45000 and the candidate
price 0 are both non-null and unequal, yet the merge reports the unchanged
action, appends no alert and leaves the stored price at 45000. -/
theorem upsert_zero_price_no_change_event :
    ((some (45000 : Int)).isSome ∧ (some (0 : Int)).isSome ∧
      some (45000 : Int) ≠ some (0 : Int)) ∧
    upsert_listing cC1zero stC1 12 =
      Except.ok (MergeAction.unchanged, false,
        ⟨[{ exC1 with last_seen := 12 }], [], 2⟩) := by
  decide

/-- Witness for C1 at the concrete scenario of the spec: 45000 then 43000. -/
theorem upsert_price_change_detection_witness :
    ∃ U st', upsert_listing cC1 stC1 11 = Except.ok (MergeAction.updated, true, st') ∧
      st'.alerts = stC1.alerts ++ [⟨exC1.id, exC1.price, cC1.price, 11⟩] ∧
      st'.listings = stC1.listings.map (fun l => if l.id == exC1.id then U else l) ∧
      U.price = cC1.price ∧
      U.price_history = exC1.price_history ++ [(exC1.price, 11)] ∧
      U.last_seen = 11 :=
  (upsert_price_change_detection cC1 stC1 11 "cars.com" "L1" exC1 rfl rfl
    (by decide)).2.1 (by decide)

/-! ### C2: null-to-value price transitions -/

/-- C2 (amended: the price field is *not* updated): when exactly one of the
stored and candidate prices is null, the merge reports the unchanged action,
appends no alert and no price-history entry — and, contrary to the claim, it
also leaves the stored price exactly as it was: a non-null candidate price
never overwrites a null stored price, because the unchanged branch of
`upsert_listing` does not touch the price column. -/
theorem upsert_null_price_transition (c : Candidate) (st : Store) (now : Nat)
    (src lid : String) (ex : StoredListing)
    (hs : c.source = some src) (hl : c.listing_id = some lid)
    (hfind : st.listings.find? (matchesIdentity src lid) = some ex)
    (hnp : (ex.price = none ∧ c.price ≠ none) ∨ (ex.price ≠ none ∧ c.price = none)) :
    ∃ U st', upsert_listing c st now = Except.ok (MergeAction.unchanged, false, st') ∧
      st'.alerts = st.alerts ∧
      st'.listings = st.listings.map (fun l => if l.id == ex.id then U else l) ∧
      U.price = ex.price ∧
      U.price_history = ex.price_history := by
  have hbr := upsert_existing_branches c st now src lid ex hs hl hfind
  have hpcd : priceChangeDetected ex.price c.price = false := by
    rcases hnp with ⟨h1, _⟩ | ⟨_, h2⟩
    · simp [priceChangeDetected, truthyInt, h1]
    · simp [priceChangeDetected, truthyInt, h2]
  rw [hpcd] at hbr
  simp only [Bool.false_eq_true, if_false] at hbr
  exact ⟨_, _, hbr, rfl, rfl, rfl, rfl⟩

/-- Counterexample to C2 as stated: the stored price is null, the candidate
supplies 43000, and after the merge the stored price is still null — the
claimed ordinary field update of the price does not happen. -/
theorem upsert_null_to_value_price_not_updated :
    exC2.price = none ∧ cC2.price = some 43000 ∧
    upsert_listing cC2 stC2 11 =
      Except.ok (MergeAction.unchanged, false,
        ⟨[{ exC2 with last_seen := 11 }], [], 2⟩) ∧
    ({ exC2 with last_seen := 11 } : StoredListing).price = none := by
  decide

/-- Witness for C2: merging the price-less candidate `cC2` with its price
removed onto the stored row `exC2` with price 45000 keeps price and history. -/
theorem upsert_null_price_transition_witness :
    ∃ U st', upsert_listing cC2 stC2 11 = Except.ok (MergeAction.unchanged, false, st') ∧
      st'.alerts = stC2.alerts ∧
      st'.listings = stC2.listings.map (fun l => if l.id == exC2.id then U else l) ∧
      U.price = exC2.price ∧
      U.price_history = exC2.price_history :=
  upsert_null_price_transition cC2 stC2 11 "cars.com" "L1" exC2 rfl rfl
    (by decide) (Or.inl ⟨rfl, by decide⟩)

/-! ### C4: last-known-value semantics of the descriptive fields -/

/-- C4 (confirmed): on every merge onto an existing listing, in both update
branches, each of the eight mutable descriptive fields is set to the
candidate value when that value is non-null and keeps the existing stored
value when the candidate value is null. -/
theorem upsert_last_known_value_fields (c : Candidate) (st : Store) (now : Nat)
    (src lid : String) (ex : StoredListing)
    (hs : c.source = some src) (hl : c.listing_id = some lid)
    (hfind : st.listings.find? (matchesIdentity src lid) = some ex) :
    ∃ a b st' U, upsert_listing c st now = Except.ok (a, b, st') ∧
      st'.listings = st.listings.map (fun l => if l.id == ex.id then U else l) ∧
      U.trim = (if c.trim.isSome then c.trim else ex.trim) ∧
      U.msrp = (if c.msrp.isSome then c.msrp else ex.msrp) ∧
      U.mileage = (if c.mileage.isSome then c.mileage else ex.mileage) ∧
      U.dealer_name = (if c.dealer_name.isSome then c.dealer_name else ex.dealer_name) ∧
      U.dealer_phone = (if c.dealer_phone.isSome then c.dealer_phone else ex.dealer_phone) ∧
      U.dealer_address = (if c.dealer_address.isSome then c.dealer_address else ex.dealer_address) ∧
      U.vin = (if c.vin.isSome then c.vin else ex.vin) ∧
      U.stock_number = (if c.stock_number.isSome then c.stock_number else ex.stock_number) := by
  have hbr := upsert_existing_branches c st now src lid ex hs hl hfind
  cases hb : priceChangeDetected ex.price c.price with
  | true =>
    rw [hb, if_pos rfl] at hbr
    exact ⟨_, _, _, _, hbr, rfl, coalesce_eq_ite _ _, coalesce_eq_ite _ _,
      coalesce_eq_ite _ _, coalesce_eq_ite _ _, coalesce_eq_ite _ _,
      coalesce_eq_ite _ _, coalesce_eq_ite _ _, coalesce_eq_ite _ _⟩
  | false =>
    rw [hb] at hbr
    simp only [Bool.false_eq_true, if_false] at hbr
    exact ⟨_, _, _, _, hbr, rfl, coalesce_eq_ite _ _, coalesce_eq_ite _ _,
      coalesce_eq_ite _ _, coalesce_eq_ite _ _, coalesce_eq_ite _ _,
      coalesce_eq_ite _ _, coalesce_eq_ite _ _, coalesce_eq_ite _ _⟩

/-- Witness for C4: a candidate with a null trim and a fresh msrp keeps the
stored trim SR5 and overwrites the msrp. -/
theorem upsert_last_known_value_fields_witness :
    ∃ a b st' U, upsert_listing cC4 stC4 11 = Except.ok (a, b, st') ∧
      st'.listings = stC4.listings.map (fun l => if l.id == exC4.id then U else l) ∧
      U.trim = (if cC4.trim.isSome then cC4.trim else exC4.trim) ∧
      U.msrp = (if cC4.msrp.isSome then cC4.msrp else exC4.msrp) ∧
      U.mileage = (if cC4.mileage.isSome then cC4.mileage else exC4.mileage) ∧
      U.dealer_name = (if cC4.dealer_name.isSome then cC4.dealer_name else exC4.dealer_name) ∧
      U.dealer_phone = (if cC4.dealer_phone.isSome then cC4.dealer_phone else exC4.dealer_phone) ∧
      U.dealer_address = (if cC4.dealer_address.isSome then cC4.dealer_address else exC4.dealer_address) ∧
      U.vin = (if cC4.vin.isSome then cC4.vin else exC4.vin) ∧
      U.stock_number = (if cC4.stock_number.isSome then cC4.stock_number else exC4.stock_number) :=
  upsert_last_known_value_fields cC4 stC4 11 "autotrader" "A9" exC4 rfl rfl (by decide)


/-! ### The price-bounds and discount filters -/

theorem not_lt_decide (m p : Int) : (!decide (p < m)) = decide (m ≤ p) := by
  by_cases h : p < m
  · simp [h, show ¬ m ≤ p by omega]
  · simp [h, show m ≤ p by omega]

theorem passes_filters_price_bounds (pmin pmax : Option Int) (l : StoredListing) :
    passes_filters { FILTERS with price_min := pmin, price_max := pmax } l =
      keptByPriceBounds pmin pmax l.price := by
  unfold passes_filters keptByPriceBounds
  cases hp : l.price with
  | none => simp [FILTERS, truthyInt, truthyRat]
  | some p =>
    by_cases hp0 : p = 0 <;>
      rcases pmin with _ | m <;> rcases pmax with _ | M <;>
      (try by_cases hm : m = 0) <;> (try by_cases hM : M = 0) <;>
      simp_all [FILTERS, truthyInt, truthyRat, not_lt_decide] <;>
      simp [beq_eq_false_iff_ne.mpr hp0, beq_eq_false_iff_ne.mpr hm,
        beq_eq_false_iff_ne.mpr hM]

/-- With only the price bounds enabled, `apply_filters` keeps exactly the
listings allowed by `keptByPriceBounds`. -/
theorem apply_filters_price_bounds_eq (listings : List StoredListing)
    (pmin pmax : Option Int) :
    apply_filters listings { FILTERS with price_min := pmin, price_max := pmax } =
      listings.filter (fun l => keptByPriceBounds pmin pmax l.price) := by
  unfold apply_filters
  apply List.filter_congr
  intro l _
  exact passes_filters_price_bounds pmin pmax l


/-! ### C6: price-bounds filtering -/

/-- C6 (amended: a price equal to the literal 0 — falsy in Python — passes
the bounds like a null price, and a bound set to 0 counts as unset):
`apply_filters` with only the price bounds enabled keeps exactly the
listings whose price is null, zero, or within every effective bound; in
particular the 30000/45000/60000 scenario with bounds [40000, 50000] keeps
exactly the 45000 listing. -/
theorem apply_filters_price_bounds_spec :
    (∀ (listings : List StoredListing) (pmin pmax : Option Int),
      apply_filters listings { FILTERS with price_min := pmin, price_max := pmax } =
        listings.filter (fun l => keptByPriceBounds pmin pmax l.price)) ∧
    (apply_filters [lC6 1 (some 30000), lC6 2 (some 45000), lC6 3 (some 60000)]
        { FILTERS with price_min := some 40000, price_max := some 50000 } =
      [lC6 2 (some 45000)]) :=
  ⟨apply_filters_price_bounds_eq, by decide⟩

/-- Counterexample to C6 as stated: the price 0 is non-null and lies outside
[40000, 50000], yet the listing is kept by `apply_filters`. -/
theorem apply_filters_zero_price_passes_bounds :
    (some (0 : Int)).isSome ∧ ¬ ((40000 : Int) ≤ 0 ∧ (0 : Int) ≤ 50000) ∧
    apply_filters [lC6 1 (some 0)]
        { FILTERS with price_min := some 40000, price_max := some 50000 } =
      [lC6 1 (some 0)] := by
  decide

/-! ### C10: a zero price behaves as an absent price -/

/-- C10 (confirmed): a price equal to the integer 0 is treated as absent at
the public interface — a merge in which either price is 0 never detects a
price change, appends no alert and no history entry and reports the
unchanged action; and in filtering a listing priced 0 is never excluded by a
set price bound. -/
theorem zero_price_treated_as_absent :
    (∀ (c : Candidate) (st : Store) (now : Nat) (src lid : String) (ex : StoredListing),
      c.source = some src → c.listing_id = some lid →
      st.listings.find? (matchesIdentity src lid) = some ex →
      (ex.price = some 0 ∨ c.price = some 0) →
      ∃ U st', upsert_listing c st now = Except.ok (MergeAction.unchanged, false, st') ∧
        st'.alerts = st.alerts ∧
        st'.listings = st.listings.map (fun l => if l.id == ex.id then U else l) ∧
        U.price = ex.price ∧ U.price_history = ex.price_history) ∧
    (∀ (listings : List StoredListing) (pmin pmax : Option Int) (l : StoredListing),
      l.price = some 0 →
      (l ∈ apply_filters listings { FILTERS with price_min := pmin, price_max := pmax } ↔
        l ∈ listings)) := by
  constructor
  · intro c st now src lid ex hs hl hfind hz
    have hbr := upsert_existing_branches c st now src lid ex hs hl hfind
    have hpcd : priceChangeDetected ex.price c.price = false := by
      rcases hz with h | h
      · simp [priceChangeDetected, truthyInt, h]
      · simp [priceChangeDetected, truthyInt, h]
    rw [hpcd] at hbr
    simp only [Bool.false_eq_true, if_false] at hbr
    exact ⟨_, _, hbr, rfl, rfl, rfl, rfl⟩
  · intro listings pmin pmax l hz
    rw [apply_filters_price_bounds_eq, List.mem_filter]
    simp [keptByPriceBounds, hz]

/-- Witness for C10: stored price 0 re-observed at 500 stays unchanged, and a
0-priced listing survives the bounds [40000, 50000]. -/
theorem zero_price_treated_as_absent_witness :
    (∃ U st', upsert_listing cC10 stC10 11 = Except.ok (MergeAction.unchanged, false, st') ∧
      st'.alerts = stC10.alerts ∧
      st'.listings = stC10.listings.map (fun l => if l.id == exC10.id then U else l) ∧
      U.price = exC10.price ∧ U.price_history = exC10.price_history) ∧
    (lC10 ∈ apply_filters [lC10]
        { FILTERS with price_min := some 40000, price_max := some 50000 } ↔
      lC10 ∈ [lC10]) :=
  ⟨zero_price_treated_as_absent.1 cC10 stC10 11 "cars.com" "Z1" exC10 rfl rfl
      (by decide) (Or.inl rfl),
   zero_price_treated_as_absent.2 [lC10] (some 40000) (some 50000) lC10 rfl⟩

/-! ### C8: the minimum-discount filter -/

theorem not_lt_decide_rat (a b : ℚ) : (!decide (a < b)) = decide (b ≤ a) := by
  by_cases h : a < b
  · simp [h, not_le.mpr h]
  · simp [h, le_of_not_lt h]

theorem passes_filters_min_discount (t : ℚ) (ht : t ≠ 0) (l : StoredListing) :
    passes_filters { FILTERS with min_discount_percent := some t } l =
      keptByDiscount t l.msrp l.price := by
  unfold passes_filters keptByDiscount
  have htb : (t == 0) = false := by simpa using ht
  cases hm : l.msrp with
  | none => simp [FILTERS, truthyInt, truthyRat, htb]
  | some m =>
    cases hp : l.price with
    | none => simp [FILTERS, truthyInt, truthyRat, htb]
    | some p =>
      by_cases hm0 : m = 0 <;> by_cases hp0 : p = 0 <;>
        simp_all [FILTERS, truthyInt, truthyRat, htb, not_lt_decide_rat]

/-- C8 (amended: a listing lacking msrp — or with msrp or price equal to the
falsy 0 — passes through unfiltered rather than being excluded): with
`min_discount_percent` set to a nonzero threshold, a listing with known
nonzero msrp and price is dropped exactly when its discount percentage
`(msrp - price) / msrp * 100` is below the threshold, and every other
listing is kept. -/
theorem apply_filters_min_discount_spec (listings : List StoredListing)
    (t : ℚ) (ht : t ≠ 0) :
    apply_filters listings { FILTERS with min_discount_percent := some t } =
      listings.filter (fun l => keptByDiscount t l.msrp l.price) := by
  unfold apply_filters
  exact List.filter_congr fun l _ => passes_filters_min_discount t ht l

/-- Counterexample to C8 as stated: with the discount threshold 5 set, the
listing lacking msrp is kept by `apply_filters`, not excluded. -/
theorem apply_filters_missing_msrp_passes :
    lC8.msrp = none ∧
    apply_filters [lC8] { FILTERS with min_discount_percent := some 5 } = [lC8] := by
  decide

/-- Witness for C8 at threshold 5: the 60000-msrp, 58000-price listing is
handled by the discount predicate (and is in fact dropped, its discount
being 10/3 percent). -/
theorem apply_filters_min_discount_spec_witness :
    (5 : ℚ) ≠ 0 ∧
    (apply_filters [lC8w] { FILTERS with min_discount_percent := some 5 } =
      [lC8w].filter (fun l => keptByDiscount 5 l.msrp l.price)) :=
  ⟨by norm_num, apply_filters_min_discount_spec [lC8w] 5 (by norm_num)⟩


/-! ### C5: ordering of the listing query -/

/-- C5 (amended: SQLite sorts NULL *before* every integer, so the null-priced
listings come first, not last): the pure listing query returns exactly the
stored listings matching the optional make and model restriction, as a
permutation, ordered ascending by price with null prices placed first (the
order `priceOrd`). -/
theorem get_listings_sorted_nulls_first (make model : Option String)
    (f : Filters) (st : Store) :
    List.Sorted priceOrd (get_listings make model false f st) ∧
    List.Perm (get_listings make model false f st)
      (st.listings.filter (matchesMakeModel make model)) := by
  unfold get_listings sortedRows
  simp only [Bool.false_eq_true, if_false]
  exact ⟨List.sorted_insertionSort priceOrd _, List.perm_insertionSort priceOrd _⟩

/-- Counterexample to C5 as stated: on a store holding a null-priced listing
and a 30000 one, the query returns the null price first, an order that is
not ascending-with-nulls-last. -/
theorem get_listings_nulls_not_last :
    ((get_listings none none false FILTERS stC5).map (fun l => l.price) =
      [none, some 30000]) ∧
    ¬ List.Pairwise (fun a b => specNullsLastLe a b = true)
      [none, some (30000 : Int)] := by
  decide

/-! ### C7: the windowed change-event query -/

theorem filterMap_map_alert (listings : List StoredListing) (cutoff : Nat) :
    ∀ ps : List PriceAlert,
      (∀ pa ∈ ps, (listings.find? (fun l => l.id == pa.listing_id)).isSome) →
      (ps.filterMap (fun pa =>
        if cutoff ≤ pa.change_date then
          (listings.find? (fun l => l.id == pa.listing_id)).map
            (fun l => (⟨pa, l.make, l.model, l.year, l.trim, l.dealer_name,
              l.listing_url⟩ : DropRow))
        else none)).map (fun r => r.alert) =
      ps.filter (fun pa => decide (cutoff ≤ pa.change_date)) := by
  intro ps
  induction ps with
  | nil => intro _; rfl
  | cons pa ps ih =>
    intro h
    have hpa := h pa (List.mem_cons_self pa ps)
    have htail := ih (fun x hx => h x (List.mem_cons_of_mem pa hx))
    by_cases hc : cutoff ≤ pa.change_date
    · obtain ⟨l, hl⟩ := Option.isSome_iff_exists.mp hpa
      simp [List.filterMap_cons, List.filter_cons, hc, hl, htail]
    · simp [List.filterMap_cons, List.filter_cons, hc, htail]

theorem joinRows_map_alert (st : Store) (cutoff : Nat)
    (hwf : ∀ pa ∈ st.alerts, (st.listings.find? (fun l => l.id == pa.listing_id)).isSome) :
    (joinRows st cutoff).map (fun r => r.alert) =
      st.alerts.filter (fun pa => decide (cutoff ≤ pa.change_date)) := by
  unfold joinRows
  exact filterMap_map_alert st.listings cutoff st.alerts hwf

/-- C7 (confirmed, over abstract instants): the change-event query returns
exactly the alerts whose timestamp is at or after the cutoff (as a
permutation of the filtered alert table), ordered newest first, each joined
with the *current* descriptive fields of its listing as stored at query
time. -/
theorem get_price_drops_spec (st : Store) (cutoff : Nat)
    (hwf : ∀ pa ∈ st.alerts, (st.listings.find? (fun l => l.id == pa.listing_id)).isSome) :
    List.Perm ((get_price_drops st cutoff).map (fun r => r.alert))
      (st.alerts.filter (fun pa => decide (cutoff ≤ pa.change_date))) ∧
    List.Sorted dropOrd (get_price_drops st cutoff) ∧
    (∀ r ∈ get_price_drops st cutoff, ∃ l,
      st.listings.find? (fun l' => l'.id == r.alert.listing_id) = some l ∧
      r.make = l.make ∧ r.model = l.model ∧ r.year = l.year ∧
      r.trim = l.trim ∧ r.dealer_name = l.dealer_name ∧
      r.listing_url = l.listing_url) := by
  refine ⟨?_, List.sorted_insertionSort dropOrd _, ?_⟩
  · have hperm := (List.perm_insertionSort dropOrd (joinRows st cutoff)).map
      (fun r => r.alert)
    rw [joinRows_map_alert st cutoff hwf] at hperm
    exact hperm
  · intro r hr
    have hr' : r ∈ joinRows st cutoff := by
      unfold get_price_drops at hr
      simpa using hr
    unfold joinRows at hr'
    obtain ⟨pa, hpa, hf⟩ := List.mem_filterMap.mp hr'
    by_cases hc : cutoff ≤ pa.change_date
    · rw [if_pos hc] at hf
      obtain ⟨l, hl, hrl⟩ := Option.map_eq_some'.mp hf
      subst hrl
      exact ⟨l, hl, rfl, rfl, rfl, rfl, rfl, rfl⟩
    · rw [if_neg hc] at hf
      simp at hf

/-- Witness for C7 on the concrete store `stC7` with cutoff 3: the alert
dated 2 is excluded, the alert dated 9 is included and joined with the
current listing fields. -/
theorem get_price_drops_spec_witness :
    (List.Perm ((get_price_drops stC7 3).map (fun r => r.alert))
      (stC7.alerts.filter (fun pa => decide (3 ≤ pa.change_date))) ∧
    List.Sorted dropOrd (get_price_drops stC7 3) ∧
    (∀ r ∈ get_price_drops stC7 3, ∃ l,
      stC7.listings.find? (fun l' => l'.id == r.alert.listing_id) = some l ∧
      r.make = l.make ∧ r.model = l.model ∧ r.year = l.year ∧
      r.trim = l.trim ∧ r.dealer_name = l.dealer_name ∧
      r.listing_url = l.listing_url)) ∧
    (get_price_drops stC7 3).map (fun r => r.alert.change_date) = [9] :=
  ⟨get_price_drops_spec stC7 3 (by decide), by decide⟩


/-! ### C3: idempotence of the merge -/

theorem upsert_reobserve (c : Candidate) (ls : List StoredListing)
    (al : List PriceAlert) (nid : Nat) (src lid mk md : String) (yr : Int)
    (now t₁ t₂ : Nat)
    (hs : c.source = some src) (hl : c.listing_id = some lid)
    (habsent : ls.find? (matchesIdentity src lid) = none)
    (hid : ∀ l ∈ ls, l.id ≠ nid) :
    upsert_listing c ⟨ls ++ [insertedRow c src lid mk md yr nid now t₁], al, nid + 1⟩ t₂ =
      Except.ok (MergeAction.unchanged, false,
        ⟨ls ++ [insertedRow c src lid mk md yr nid now t₂], al, nid + 1⟩) := by
  have hfind : (ls ++ [insertedRow c src lid mk md yr nid now t₁]).find?
      (matchesIdentity src lid) = some (insertedRow c src lid mk md yr nid now t₁) := by
    rw [find?_append_of_none habsent]
    simp [List.find?, matchesIdentity, insertedRow]
  have hbr := upsert_existing_branches c
    ⟨ls ++ [insertedRow c src lid mk md yr nid now t₁], al, nid + 1⟩ t₂
    src lid (insertedRow c src lid mk md yr nid now t₁) hs hl hfind
  have hpcd : priceChangeDetected (insertedRow c src lid mk md yr nid now t₁).price
      c.price = false := by
    simp [insertedRow, priceChangeDetected]
  rw [hpcd] at hbr
  simp only [Bool.false_eq_true, if_false] at hbr
  rw [hbr]
  have hU : ({ mergeFields c (insertedRow c src lid mk md yr nid now t₁) with
      last_seen := t₂ } : StoredListing) = insertedRow c src lid mk md yr nid now t₂ := by
    simp [mergeFields, insertedRow, coalesce_self]
  have hid' : ∀ l ∈ ls, l.id ≠ (insertedRow c src lid mk md yr nid now t₁).id := by
    intro l hl'
    simpa [insertedRow] using hid l hl'
  have hmap : (ls ++ [insertedRow c src lid mk md yr nid now t₁]).map
      (fun l => if l.id == (insertedRow c src lid mk md yr nid now t₁).id then
        { mergeFields c (insertedRow c src lid mk md yr nid now t₁) with
          last_seen := t₂ } else l) =
      ls ++ [insertedRow c src lid mk md yr nid now t₂] := by
    rw [List.map_append, map_replace_id_eq_self hid']
    simp [hU]
  simp only [hmap]

/-- C3 (confirmed, with observation instants made explicit): merging a
well-formed candidate whose identity is absent yields the inserted action
once; re-merging the identical candidate, at any instant, always yields the
unchanged action and never an error, and changes nothing but the last-seen
stamp, so the state after the second merge (carried out at the same instant,
the reading of merging twice in a row) equals the state after the first. -/
theorem upsert_idempotent (c : Candidate) (st : Store) (now : Nat)
    (src lid mk md : String) (yr : Int)
    (hs : c.source = some src) (hl : c.listing_id = some lid)
    (hm : c.make = some mk) (hmd : c.model = some md) (hy : c.year = some yr)
    (habsent : st.listings.find? (matchesIdentity src lid) = none)
    (hid : ∀ l ∈ st.listings, l.id ≠ st.next_id) :
    ∃ F : Nat → Store,
      upsert_listing c st now = Except.ok (MergeAction.inserted, false, F now) ∧
      ∀ t₁ t₂ : Nat,
        upsert_listing c (F t₁) t₂ = Except.ok (MergeAction.unchanged, false, F t₂) := by
  refine ⟨fun t =>
    ⟨st.listings ++ [insertedRow c src lid mk md yr st.next_id now t],
     st.alerts, st.next_id + 1⟩, ?_, ?_⟩
  · unfold upsert_listing
    rw [hs, hl]
    simp only [requireKey, Bind.bind, Except.bind]
    rw [habsent, hm, hmd, hy]
    rfl
  · intro t₁ t₂
    exact upsert_reobserve c st.listings st.alerts st.next_id src lid mk md yr
      now t₁ t₂ hs hl habsent hid

/-- Witness for C3: inserting the full candidate `cC3` into the empty store
and re-merging it. -/
theorem upsert_idempotent_witness :
    ∃ F : Nat → Store,
      upsert_listing cC3 emptyStore 10 = Except.ok (MergeAction.inserted, false, F 10) ∧
      ∀ t₁ t₂ : Nat,
        upsert_listing cC3 (F t₁) t₂ = Except.ok (MergeAction.unchanged, false, F t₂) :=
  upsert_idempotent cC3 emptyStore 10 "cargurus" "G7" "ford" "f-150" 2025
    rfl rfl rfl rfl rfl (by decide) (by decide)

/-! ### C9: malformed candidates -/

/-- C9 (amended: the rejection is an uncaught error that aborts the rest of
the batch, not a non-fatal result): a candidate missing a required identity
key — or, when its identity is not already stored, a required descriptive
key — makes `upsert_listing` raise without committing any mutation, and the
batch loop of `run_full_scrape` stops there, leaving the store as it was and
every later candidate unprocessed. -/
theorem upsert_malformed_rejected_aborts_batch (c : Candidate) (st : Store)
    (now : Nat) (rest : List Candidate)
    (hmal : c.source = none ∨ c.listing_id = none ∨
      (∃ src lid, c.source = some src ∧ c.listing_id = some lid ∧
        st.listings.find? (matchesIdentity src lid) = none ∧
        (c.make = none ∨ c.model = none ∨ c.year = none))) :
    ∃ e, upsert_listing c st now = Except.error e ∧
      process_listings (c :: rest) st now = (st, some e) := by
  have key : ∃ e, upsert_listing c st now = Except.error e := by
    rcases hmal with h | h | ⟨src, lid, h1, h2, h3, h4⟩
    · exact ⟨"source", by
        simp [upsert_listing, requireKey, h, Bind.bind, Except.bind]⟩
    · cases hsrc : c.source with
      | none => exact ⟨"source", by
          simp [upsert_listing, requireKey, hsrc, Bind.bind, Except.bind]⟩
      | some s => exact ⟨"listing_id", by
          simp [upsert_listing, requireKey, hsrc, h, Bind.bind, Except.bind]⟩
    · cases hmk : c.make with
      | none => exact ⟨"make", by
          simp [upsert_listing, requireKey, h1, h2, h3, hmk, Bind.bind, Except.bind]⟩
      | some mkv =>
        cases hmo : c.model with
        | none => exact ⟨"model", by
            simp [upsert_listing, requireKey, h1, h2, h3, hmk, hmo,
              Bind.bind, Except.bind]⟩
        | some mov =>
          cases hyr : c.year with
          | none => exact ⟨"year", by
              simp [upsert_listing, requireKey, h1, h2, h3, hmk, hmo, hyr,
                Bind.bind, Except.bind]⟩
          | some yv => rcases h4 with h | h | h <;> simp_all
  obtain ⟨e, he⟩ := key
  exact ⟨e, he, by simp [process_listings, he]⟩

/-- Counterexample to C9 as stated: the malformed candidate raises, the
error propagates, and the well-formed candidate queued after it is never
merged — the batch is aborted rather than continued. -/
theorem process_listings_aborts_after_malformed :
    upsert_listing cC9bad emptyStore 0 = Except.error "make" ∧
    process_listings [cC9bad, cC9good] emptyStore 0 = (emptyStore, some "make") ∧
    (process_listings [cC9bad, cC9good] emptyStore 0).1.listings = [] := by
  decide

/-- Witness for C9: the candidate missing its make key, queued before a good
candidate over the empty store. -/
theorem upsert_malformed_rejected_aborts_batch_witness :
    ∃ e, upsert_listing cC9bad emptyStore 0 = Except.error e ∧
      process_listings (cC9bad :: [cC9good]) emptyStore 0 = (emptyStore, some e) :=
  upsert_malformed_rejected_aborts_batch cC9bad emptyStore 0 [cC9good]
    (Or.inr (Or.inr ⟨"cars.com", "B1", rfl, rfl, rfl, Or.inl rfl⟩))

end DealFinder
